import Mathlib

/-!
Shallow embedding of `src/main.py`, a one-shot composite-image generator:
gradient background, two flower ornaments, a logo overlay, four placeholder
photos and a JSON-driven table, drawn onto a 692×982 RGBA canvas.

Drawing calls are embedded as lists of drawing commands; Python `int`/`float`
arithmetic is embedded over `ℤ`/`ℚ` (and `ℝ` where the code calls `math.cos`
and `math.sin`); fallible Python operations (dict lookup, list indexing,
JSON loading) are embedded with `Except`/`Option`.
-/

/-- Python `int()` applied to a nonintegral number: truncation toward zero. -/
def pytrunc (q : ℚ) : ℤ := if 0 ≤ q then ⌊q⌋ else -⌊-q⌋

/-- Python `//` on integers: floor division. -/
def pyFloorDiv (a b : ℤ) : ℤ := Int.fdiv a b

/-! ## `hex_to_rgb` (src/main.py lines 6-17) -/

/-- Value of one hexadecimal digit, as Python `int(_, 16)` accepts them
(both cases); `none` models Python raising `ValueError`. -/
def hexDigitVal (c : Char) : Option ℕ :=
  if '0' ≤ c ∧ c ≤ '9' then some (c.toNat - '0'.toNat)
  else if 'a' ≤ c ∧ c ≤ 'f' then some (c.toNat - 'a'.toNat + 10)
  else if 'A' ≤ c ∧ c ≤ 'F' then some (c.toNat - 'A'.toNat + 10)
  else none

/-- Python `int(s, 16)` on a two-character slice: both characters must be
hex digits. -/
def parseHexByte (cs : List Char) : Option ℕ :=
  match cs with
  | [a, b] => do
      let va ← hexDigitVal a
      let vb ← hexDigitVal b
      some (16 * va + vb)
  | _ => none

/-- Function `hex_to_rgb`: strip leading `#` characters (`lstrip('#')`), then parse the
slices `[0:2]`, `[2:4]`, `[4:6]` as hex bytes. -/
def hex_to_rgb (s : String) : Option (ℕ × ℕ × ℕ) := do
  let t := s.toList.dropWhile (· = '#')
  let r ← parseHexByte ((t.drop 0).take 2)
  let g ← parseHexByte ((t.drop 2).take 2)
  let b ← parseHexByte ((t.drop 4).take 2)
  some (r, g, b)

/-! ## `draw_gradient` (src/main.py lines 19-36) -/

/-- The blend factor of row `i`:
`(float(i) / height) * 2 if i <= height // 2 else 2 - (float(i) / height) * 2`. -/
def blendFactor (height i : ℕ) : ℚ :=
  if i ≤ height / 2 then ((i : ℚ) / height) * 2 else 2 - ((i : ℚ) / height) * 2

/-- One channel of a gradient row's color:
`int(top_color[j] * (1 - blend) + bottom_color[j] * blend)`. -/
def gradChannel (t b : ℕ) (blend : ℚ) : ℤ :=
  pytrunc ((t : ℚ) * (1 - blend) + (b : ℚ) * blend)

/-- The full color of gradient row `i`. -/
def gradColor (height i : ℕ) (top bottom : ℕ × ℕ × ℕ) : ℤ × ℤ × ℤ :=
  (gradChannel top.1 bottom.1 (blendFactor height i),
   gradChannel top.2.1 bottom.2.1 (blendFactor height i),
   gradChannel top.2.2 bottom.2.2 (blendFactor height i))

/-- A `draw.line` command: endpoints, color, stroke width. -/
inductive GCmd where
  | line (x0 y0 x1 y1 : ℕ) (color : ℤ × ℤ × ℤ) (strokeWidth : ℕ)
deriving DecidableEq, Repr

/-- Function `draw_gradient`: one full-width horizontal line per row `i in range(height)`,
colored by the blend of `top` and `bottom` at row `i`. -/
def draw_gradient (width height : ℕ) (top bottom : ℕ × ℕ × ℕ) : List GCmd :=
  (List.range height).map fun i =>
    GCmd.line 0 i width i (gradColor height i top bottom) 1

/-! ## `draw_flower` (src/main.py lines 38-62)

`math.cos`/`math.sin` force this part of the embedding into `ℝ`. -/

/-- A `draw.ellipse` command: bounding box and fill color. -/
inductive FCmd where
  | ellipse (x0 y0 x1 y1 : ℝ) (fill : String)

/-- Angle of petal `i`: `math.radians(i * (360 / petals))` with `petals = 5`. -/
noncomputable def petalAngle (i : ℕ) : ℝ :=
  ((i : ℝ) * (360 / 5)) * Real.pi / 180

/-- Function `draw_flower`: five petal ellipses (`for i in range(petals)`), then the
central disc ellipse, with `inner_radius = 10 * scale` and
`outer_radius = 30 * scale`. -/
noncomputable def draw_flower (x y scale : ℝ) : List FCmd :=
  ((List.range 5).map fun i =>
    let dx := (10 * scale) * Real.cos (petalAngle i)
    let dy := (10 * scale) * Real.sin (petalAngle i)
    FCmd.ellipse (x - 30 * scale + dx) (y - 30 * scale + dy)
                 (x + 30 * scale + dx) (y + 30 * scale + dy) "pink")
  ++ [FCmd.ellipse (x - 10 * scale) (y - 10 * scale)
                   (x + 10 * scale) (y + 10 * scale) "yellow"]

/-! ## JSON values, `load_json_file` (src/main.py lines 95-114) -/

/-- A JSON value, as far as this program inspects one: strings, arrays and
objects (Python dicts with string keys). -/
inductive JVal where
  | str (s : String)
  | arr (xs : List JVal)
  | obj (fields : List (String × JVal))

/-- A filesystem for the loader: `none` models `FileNotFoundError` on `open`;
`some none` models a file whose contents fail `json.load` with
`JSONDecodeError`; `some (some v)` a file parsing to `v`. -/
def FileSystem : Type := String → Option (Option JVal)

/-- Function `load_json_file`: the parsed value on success; on `FileNotFoundError` or
`JSONDecodeError` the handler prints a message and returns `{}`
(the empty dict, `JVal.obj []`). -/
def load_json_file (fs : FileSystem) (filepath : String) : JVal :=
  match fs filepath with
  | some (some v) => v
  | some none => JVal.obj []
  | none => JVal.obj []

/-! ## `draw_table` (src/main.py lines 64-93) -/

/-- Python exceptions this embedding can surface. -/
inductive PyErr where
  | keyError (k : String)
  | indexError
  | typeError
deriving DecidableEq, Repr

/-- A table drawing command: a `draw.rectangle` (corners, fill, outline) or a
`draw.text` (position, text, fill). -/
inductive TCmd where
  | rect (x0 y0 x1 y1 : ℤ) (fill : String) (outline : String)
  | text (x y : ℤ) (s : String) (fill : String)
deriving DecidableEq, Repr

/-- Subscript `d[k]` on a Python dict: `KeyError` when the key is absent. -/
def dictGet (v : JVal) (k : String) : Except PyErr JVal :=
  match v with
  | JVal.obj fields =>
      match fields.lookup k with
      | some x => Except.ok x
      | none => Except.error (PyErr.keyError k)
  | _ => Except.error PyErr.typeError

/-- Subscript `xs[i]` on a Python list at a nonnegative index: `IndexError` when out of
range. -/
def pyIndex {α : Type} (xs : List α) (i : ℕ) : Except PyErr α :=
  match xs.get? i with
  | some v => Except.ok v
  | none => Except.error PyErr.indexError

/-- Python `sum(col_widths[:col_idx])`: slicing past the end is safe in Python. -/
def sumWidths (ws : List ℤ) (i : ℕ) : ℤ := ((ws.take i).sum)

/-- Iterating a JSON value that the code expects to be an array of strings
(`table_data['columns']`, each row of `table_data['data']`). -/
def asStrList (v : JVal) : Except PyErr (List String) :=
  match v with
  | JVal.arr xs =>
      xs.foldr (fun x acc => do
        let rest ← acc
        match x with
        | JVal.str s => Except.ok (s :: rest)
        | _ => Except.error PyErr.typeError) (Except.ok [])
  | _ => Except.error PyErr.typeError

/-- Field `table_data['data']` as a list of rows of strings. -/
def asRows (v : JVal) : Except PyErr (List (List String)) :=
  match v with
  | JVal.arr xs =>
      xs.foldr (fun x acc => do
        let rest ← acc
        let row ← asStrList x
        Except.ok (row :: rest)) (Except.ok [])
  | _ => Except.error PyErr.typeError

/-- The header loop body from index `i`: for each column label, a gold-filled
outlined rectangle at `x_offset = top_left_x + sum(col_widths[:col_idx])` and
the label text inset by `(10, 10)`. -/
def headerCmds (x y : ℤ) (ws : List ℤ) (rh : ℤ) :
    ℕ → List String → Except PyErr (List TCmd)
  | _, [] => Except.ok []
  | i, c :: cs => do
      let w ← pyIndex ws i
      let xo := x + sumWidths ws i
      let rest ← headerCmds x y ws rh (i + 1) cs
      Except.ok
        (TCmd.rect xo y (xo + w) (y + rh) "#FFD700" "black" ::
         TCmd.text (xo + 10) (y + 10) c "black" :: rest)

/-- One data row's cell loop from index `i`: fill alternates by column parity
(`"#E6E6FA" if col_idx % 2 == 0 else "#98FB98"`). -/
def rowCmds (x yo : ℤ) (ws : List ℤ) (rh : ℤ) :
    ℕ → List String → Except PyErr (List TCmd)
  | _, [] => Except.ok []
  | i, c :: cs => do
      let w ← pyIndex ws i
      let xo := x + sumWidths ws i
      let rest ← rowCmds x yo ws rh (i + 1) cs
      Except.ok
        (TCmd.rect xo yo (xo + w) (yo + rh)
           (if i % 2 = 0 then "#E6E6FA" else "#98FB98") "black" ::
         TCmd.text (xo + 10) (yo + 10) c "black" :: rest)

/-- The data-row loop: draw each row at the current `y_offset`, then
`y_offset += row_height`. -/
def rowsCmds (x : ℤ) (ws : List ℤ) (rh : ℤ) :
    ℤ → List (List String) → Except PyErr (List TCmd)
  | _, [] => Except.ok []
  | yo, row :: rows => do
      let rc ← rowCmds x yo ws rh 0 row
      let rest ← rowsCmds x ws rh (yo + rh) rows
      Except.ok (rc ++ rest)

/-- Function `draw_table`: header row from `table_data['columns']` at the anchor, then
`y_offset += row_height`, then the data rows from `table_data['data']`. -/
def draw_table (top_left_x top_left_y : ℤ) (table_data : JVal)
    (col_widths : List ℤ) (row_height : ℤ) : Except PyErr (List TCmd) := do
  let colsV ← dictGet table_data "columns"
  let cols ← asStrList colsV
  let hc ← headerCmds top_left_x top_left_y col_widths row_height 0 cols
  let dataV ← dictGet table_data "data"
  let rows ← asRows dataV
  let rc ← rowsCmds top_left_x col_widths row_height (top_left_y + row_height) rows
  Except.ok (hc ++ rc)

/-- A well-formed table record set as a JSON value: the shape the spec's JSON
table format describes (`columns` a list of strings, `data` a list of rows of
strings). -/
def mkTable (cols : List String) (rows : List (List String)) : JVal :=
  JVal.obj
    [("columns", JVal.arr (cols.map JVal.str)),
     ("data", JVal.arr (rows.map fun r => JVal.arr (r.map JVal.str)))]

/-! ## PIL `Image.thumbnail` (used at src/main.py line 152)

Pillow's in-place proportional downscale (the 8.x/9.x source, the last with
`Image.ANTIALIAS`): no-op when the bound covers both dimensions, otherwise
shrink the dimension that must give way, rounding the other to whichever of
floor/ceil better preserves the aspect ratio, and never below 1. -/

/-- Pillow's `round_aspect(number, key)`:
`max(min(math.floor(number), math.ceil(number), key=key), 1)`; Python's
two-argument `min` with a key returns the first argument on ties. -/
def round_aspect (number : ℚ) (key : ℤ → ℚ) : ℤ :=
  max (if key ⌊number⌋ ≤ key ⌈number⌉ then ⌊number⌋ else ⌈number⌉) 1

/-- The size `Image.thumbnail((bound, bound))` leaves the image with, for an
image of size `w × h`. -/
def thumbnail_size (w h bound : ℕ) : ℕ × ℕ :=
  if bound ≥ w ∧ bound ≥ h then (w, h)
  else
    let aspect : ℚ := (w : ℚ) / h
    if (bound : ℚ) / bound ≥ aspect then
      ((round_aspect ((bound : ℚ) * aspect)
          (fun n => |aspect - (n : ℚ) / bound|)).toNat, bound)
    else
      (bound,
       (round_aspect ((bound : ℚ) / aspect)
          (fun n => if n = 0 then 0 else |aspect - (bound : ℚ) / n|)).toNat)

/-! ## Orchestrator constants
(`create_composite_image_with_gradient`, src/main.py lines 116-185) -/

/-- Canvas width: `width, height = 692, 982`. -/
def canvas_width : ℕ := 692

/-- Canvas height. -/
def canvas_height : ℕ := 982

/-- Constant `margin = 35`. -/
def margin : ℤ := 35

/-- Constant `flower_scale = 1.5` (the float literal is exact). -/
def flower_scale : ℚ := 3 / 2

/-- Constant `outer_radius = int(30 * flower_scale)`. -/
def outer_radius : ℤ := pytrunc (30 * flower_scale)

/-- Constant `logo_size = 180`. -/
def logo_size : ℕ := 180

/-- The size the logo has after `logo.thumbnail((logo_size, logo_size))`,
for a logo image of original size `w × h`. -/
def logo_scaled_size (w h : ℕ) : ℕ × ℕ := thumbnail_size w h logo_size

/-- Constant `logo_position = (int(width // 2 - logo_size // 2),
int(margin + outer_radius - logo_size // 2))`; all operands are ints, so the
outer `int(...)` is the identity. -/
def logo_position : ℤ × ℤ :=
  (pyFloorDiv 692 2 - pyFloorDiv 180 2, margin + outer_radius - pyFloorDiv 180 2)

/-- How `Image.paste` masks the pasted image: no mask (an opaque paste), or
the pasted image itself passed as the mask, making PIL use its alpha band. -/
inductive PasteMask where
  | noMask
  | selfAlpha
deriving DecidableEq, Repr

/-- One `Image.paste` call on the composite: position, pasted size, mask. -/
structure PasteCmd where
  pos : ℤ × ℤ
  size : ℕ × ℕ
  mask : PasteMask
deriving DecidableEq, Repr

/-- The logo paste `composite_image.paste(logo, logo_position, logo)` for a
logo of original size `w × h`: the third argument is the logo itself, so its
alpha channel is the mask. -/
def logo_paste_cmd (w h : ℕ) : PasteCmd :=
  { pos := logo_position, size := logo_scaled_size w h, mask := PasteMask.selfAlpha }

/-- Constant `top_space = margin * 2 + int(outer_radius * flower_scale)`. -/
def top_space : ℤ := margin * 2 + pytrunc ((outer_radius : ℚ) * flower_scale)

/-- Constant `placeholder_size = (300, 168)`. -/
def placeholder_size : ℤ × ℤ := (300, 168)

/-- Constant `element_positions`: the four placeholder slot origins, in left-top,
left-bottom, right-top, right-bottom order. -/
def element_positions : List (ℤ × ℤ) :=
  [(margin, top_space),
   (margin, top_space + placeholder_size.2 + margin),
   (692 - margin - placeholder_size.1, top_space),
   (692 - margin - placeholder_size.1, top_space + placeholder_size.2 + margin)]

/-- Constant `col_widths = [200, 350]`. -/
def col_widths : List ℤ := [200, 350]

/-- Constant `row_height = 40`. -/
def row_height : ℤ := 40

/-- Constant `table_top_left_x = (width - sum(col_widths)) // 2`. -/
def table_top_left_x : ℤ := pyFloorDiv (692 - col_widths.sum) 2

/-- Constant `table_top_left_y = max(pos[1] + placeholder_size[1] for pos in
element_positions) + margin`; `element_positions` is nonempty, so modelling
Python's `max` with `List.max?` loses nothing. -/
def table_top_left_y : ℤ :=
  ((element_positions.map fun pos => pos.2 + placeholder_size.2).max?.getD 0) + margin

/-- A placeholder slot as a half-open pixel rectangle
`[x, x + 300) × [y, y + 168)`. -/
structure Rect where
  x0 : ℤ
  y0 : ℤ
  x1 : ℤ
  y1 : ℤ
deriving DecidableEq, Repr

/-- The pixel rectangle a placeholder pasted at `p` covers. -/
def slotRect (p : ℤ × ℤ) : Rect :=
  ⟨p.1, p.2, p.1 + placeholder_size.1, p.2 + placeholder_size.2⟩

/-- Two rectangles share no pixel. -/
def RectDisjoint (a b : Rect) : Prop :=
  a.x1 ≤ b.x0 ∨ b.x1 ≤ a.x0 ∨ a.y1 ≤ b.y0 ∨ b.y1 ≤ a.y0

instance : DecidablePred fun p : Rect × Rect => RectDisjoint p.1 p.2 :=
  fun p => by unfold RectDisjoint; infer_instance

/-! ## Spec-side closed forms for the table layout

These follow the spec's words (column `c` at `anchor_x` plus the sum of the
widths of columns `0..c-1`; data row `r` at `anchor_y + (r+1)*row_height`),
to be compared with the code-derived `draw_table`. -/

/-- The header cells of columns `c, c+1, ...`, at the spec's positions. -/
def headerSpec (x y : ℤ) (ws : List ℤ) (rh : ℤ) : ℕ → List String → List TCmd
  | _, [] => []
  | c, t :: ts =>
      TCmd.rect (x + (ws.take c).sum) y (x + (ws.take c).sum + ws.getD c 0) (y + rh)
        "#FFD700" "black" ::
      TCmd.text (x + (ws.take c).sum + 10) (y + 10) t "black" ::
      headerSpec x y ws rh (c + 1) ts

/-- One data row's cells at vertical offset `yo`, columns `c, c+1, ...`. -/
def rowSpec (x : ℤ) (ws : List ℤ) (rh yo : ℤ) : ℕ → List String → List TCmd
  | _, [] => []
  | c, t :: ts =>
      TCmd.rect (x + (ws.take c).sum) yo (x + (ws.take c).sum + ws.getD c 0) (yo + rh)
        (if c % 2 = 0 then "#E6E6FA" else "#98FB98") "black" ::
      TCmd.text (x + (ws.take c).sum + 10) (yo + 10) t "black" ::
      rowSpec x ws rh yo (c + 1) ts

/-- All data rows, the first one drawn at vertical offset `yo`, each next one
`rh` lower. -/
def tableSpecAt (x : ℤ) (ws : List ℤ) (rh : ℤ) : ℤ → List (List String) → List TCmd
  | _, [] => []
  | yo, row :: rows => rowSpec x ws rh yo 0 row ++ tableSpecAt x ws rh (yo + rh) rows

/-- All data rows in the spec's indexing: row `r` (counting from `r0`) at
`y + (r+1)*rh`, the header occupying row 0 at `y`. -/
def tableSpec (x y : ℤ) (ws : List ℤ) (rh : ℤ) : ℕ → List (List String) → List TCmd
  | _, [] => []
  | r, row :: rows =>
      rowSpec x ws rh (y + ((r : ℤ) + 1) * rh) 0 row ++ tableSpec x y ws rh (r + 1) rows

/-! ## Helper lemmas -/

/-- Function `pytrunc` agrees with the floor on nonnegative arguments. -/
theorem pytrunc_of_nonneg {q : ℚ} (hq : 0 ≤ q) : pytrunc q = ⌊q⌋ := by
  simp [pytrunc, hq]

/-- Row `i` of the gradient, as a list element. -/
theorem draw_gradient_getElem? (w H : ℕ) (t b : ℕ × ℕ × ℕ) (i : ℕ) (hi : i < H) :
    (draw_gradient w H t b)[i]? = some (GCmd.line 0 i w i (gradColor H i t b) 1) := by
  simp [draw_gradient, List.getElem?_map, List.getElem?_range, hi]

/-- C7: `hex_to_rgb` sends `"accbf2"` to `(172, 203, 242)`, agrees on the
`"#"`-prefixed spelling, and more generally prepending `"#"` to any string
never changes its result, so `#`-prefix stripping is idempotent. -/
theorem C7_hex_to_rgb_hash :
    hex_to_rgb "accbf2" = some (172, 203, 242) ∧
    hex_to_rgb "#accbf2" = hex_to_rgb "accbf2" ∧
    ∀ h : String, hex_to_rgb ("#" ++ h) = hex_to_rgb h := by
  refine ⟨by decide, by decide, fun h => ?_⟩
  unfold hex_to_rgb
  have hl : ("#" ++ h).toList = '#' :: h.toList := by
    simp [String.toList, String.data_append]
  rw [hl]
  simp [List.dropWhile]

/-- C10: the orchestrator centers the table: the anchor x is
`(width - sum(col_widths)) // 2`, equals `71` for width `692` and widths
`[200, 350]`, and the left and right gaps to the canvas edges differ by at
most one pixel. -/
theorem C10_table_centered :
    table_top_left_x = pyFloorDiv (692 - col_widths.sum) 2 ∧
    table_top_left_x = 71 ∧
    |table_top_left_x - (692 - (table_top_left_x + col_widths.sum))| ≤ 1 := by
  refine ⟨rfl, by decide, by decide⟩

/-- The four slot origins evaluate to their concrete coordinates. -/
theorem element_positions_eq :
    element_positions = [(35, 137), (35, 340), (357, 137), (357, 340)] := by
  have ho : outer_radius = 45 := by
    norm_num [outer_radius, flower_scale, pytrunc, Int.floor_eq_iff]
  have ht : top_space = 137 := by
    norm_num [top_space, ho, flower_scale, margin, pytrunc, Int.floor_eq_iff]
  simp [element_positions, ht, margin, placeholder_size]

/-- C8: the four placeholder slot rectangles (origin from `element_positions`,
size 300×168) are pairwise disjoint. -/
theorem C8_slots_disjoint :
    List.Pairwise (fun p q => RectDisjoint (slotRect p) (slotRect q))
      element_positions := by
  rw [element_positions_eq]
  refine List.Pairwise.cons ?_ (List.Pairwise.cons ?_ (List.Pairwise.cons ?_ ?_)) <;>
    simp [slotRect, RectDisjoint, placeholder_size]

/-- Row 0 of the 982-row gradient keeps the exact top color. -/
theorem gradColor_row0 :
    gradColor 982 0 (172, 203, 242) (253, 153, 101) = (172, 203, 242) := by
  norm_num [gradColor, gradChannel, blendFactor, pytrunc, Int.floor_eq_iff, Prod.ext_iff]

/-- Row 981 of the 982-row gradient: each channel is within 1 of the top color. -/
theorem gradColor_row981 :
    gradColor 982 981 (172, 203, 242) (253, 153, 101) = (172, 202, 241) := by
  norm_num [gradColor, gradChannel, blendFactor, pytrunc, Int.floor_eq_iff, Prod.ext_iff]

/-- Row 491 = 982 // 2 of the gradient reaches the exact bottom color. -/
theorem gradColor_row491 :
    gradColor 982 491 (172, 203, 242) (253, 153, 101) = (253, 153, 101) := by
  norm_num [gradColor, gradChannel, blendFactor, pytrunc, Int.floor_eq_iff, Prod.ext_iff]

/-- C4: on the 692×982 canvas with top `(172,203,242)` and bottom
`(253,153,101)`, the gradient line of row 0 carries exactly the top color, the
line of row 981 = H-1 carries a color within 1 per channel of the top color,
and the line of row 491 = H//2 carries exactly the bottom color. -/
theorem C4_gradient_symmetry :
    (draw_gradient 692 982 (172, 203, 242) (253, 153, 101))[0]?
      = some (GCmd.line 0 0 692 0 (172, 203, 242) 1) ∧
    (draw_gradient 692 982 (172, 203, 242) (253, 153, 101))[981]?
      = some (GCmd.line 0 981 692 981 (172, 202, 241) 1) ∧
    (|(172 : ℤ) - 172| ≤ 1 ∧ |(202 : ℤ) - 203| ≤ 1 ∧ |(241 : ℤ) - 242| ≤ 1) ∧
    (draw_gradient 692 982 (172, 203, 242) (253, 153, 101))[491]?
      = some (GCmd.line 0 491 692 491 (253, 153, 101) 1) := by
  refine ⟨?_, ?_, by decide, ?_⟩
  · rw [draw_gradient_getElem? 692 982 _ _ 0 (by norm_num), gradColor_row0]
  · rw [draw_gradient_getElem? 692 982 _ _ 981 (by norm_num), gradColor_row981]
  · rw [draw_gradient_getElem? 692 982 _ _ 491 (by norm_num), gradColor_row491]

/-- C3 counterexample: at height 982, row 4, top channel 172 and bottom
channel 253, the code's channel value (truncating `int(...)`) is 172, while
the claimed `round(...)` is 173. -/
theorem C3_counterexample :
    gradChannel 172 253 (blendFactor 982 4) = 172 ∧
    round ((172 : ℚ) * (1 - blendFactor 982 4) + (253 : ℚ) * blendFactor 982 4)
      = (173 : ℤ) ∧
    (gradChannel 172 253 (blendFactor 982 4) : ℤ)
      ≠ round ((172 : ℚ) * (1 - blendFactor 982 4) + (253 : ℚ) * blendFactor 982 4) := by
  refine ⟨?_, ?_, ?_⟩
  · norm_num [gradChannel, blendFactor, pytrunc, Int.floor_eq_iff]
  · norm_num [blendFactor, round_eq, Int.floor_eq_iff]
  · norm_num [gradChannel, blendFactor, pytrunc, round_eq, Int.floor_eq_iff]

/-- For `i < height`, the blend factor lies in `[0, 1]`. -/
theorem blendFactor_mem_unit {height i : ℕ} (hi : i < height) :
    0 ≤ blendFactor height i ∧ blendFactor height i ≤ 1 := by
  have hH : (0 : ℚ) < height := by
    exact_mod_cast Nat.pos_of_ne_zero (by omega)
  unfold blendFactor
  by_cases h : i ≤ height / 2
  · rw [if_pos h]
    refine ⟨by positivity, ?_⟩
    have h2 : (i : ℚ) * 2 ≤ height := by
      exact_mod_cast (Nat.le_div_iff_mul_le (by norm_num : 0 < 2)).1 h
    rw [div_mul_eq_mul_div, div_le_one hH]
    linarith
  · rw [if_neg h]
    push_neg at h
    have h2 : (height : ℚ) < i * 2 := by
      exact_mod_cast (Nat.div_lt_iff_lt_mul (by norm_num : 0 < 2)).1 h
    have hiq : (i : ℚ) ≤ height := by exact_mod_cast hi.le
    constructor
    · have hle : (i : ℚ) / height * 2 ≤ 2 := by
        rw [div_mul_eq_mul_div, div_le_iff hH]
        linarith
      linarith
    · have hge : (1 : ℚ) ≤ (i : ℚ) / height * 2 := by
        rw [div_mul_eq_mul_div, le_div_iff hH]
        linarith
      linarith

/-- The code's channel value is the floor of the exact interpolation, and it
stays within `[0, 255]` for 8-bit inputs. -/
theorem gradChannel_floor_bounds {height i : ℕ} (hi : i < height) {t b : ℕ}
    (ht : t ≤ 255) (hb : b ≤ 255) :
    gradChannel t b (blendFactor height i)
        = ⌊(t : ℚ) * (1 - blendFactor height i) + (b : ℚ) * blendFactor height i⌋ ∧
    0 ≤ gradChannel t b (blendFactor height i) ∧
    gradChannel t b (blendFactor height i) ≤ 255 := by
  obtain ⟨h0, h1⟩ := blendFactor_mem_unit hi
  set β := blendFactor height i with hβ
  have h1' : (0 : ℚ) ≤ 1 - β := by linarith
  have hval0 : (0 : ℚ) ≤ (t : ℚ) * (1 - β) + (b : ℚ) * β := by
    have ha := mul_nonneg (Nat.cast_nonneg (α := ℚ) t) h1'
    have hc := mul_nonneg (Nat.cast_nonneg (α := ℚ) b) h0
    linarith
  have hval255 : (t : ℚ) * (1 - β) + (b : ℚ) * β ≤ 255 := by
    have htq : (t : ℚ) ≤ 255 := by exact_mod_cast ht
    have hbq : (b : ℚ) ≤ 255 := by exact_mod_cast hb
    have ha := mul_le_mul_of_nonneg_right htq h1'
    have hc := mul_le_mul_of_nonneg_right hbq h0
    linarith
  have heq : gradChannel t b β = ⌊(t : ℚ) * (1 - β) + (b : ℚ) * β⌋ := by
    rw [gradChannel, pytrunc_of_nonneg hval0]
  refine ⟨heq, ?_, ?_⟩
  · rw [heq]
    exact Int.le_floor.2 (by exact_mod_cast hval0)
  · rw [heq]
    calc ⌊(t : ℚ) * (1 - β) + (b : ℚ) * β⌋
        ≤ ⌊(255 : ℚ)⌋ := Int.floor_le_floor hval255
      _ = 255 := by norm_num

/-- C3 (amended): for every row `i < height`, the code's blend factor equals
`2*i/height` when `i ≤ height/2` (real division; equivalent to the code's
integer condition) and `2 - 2*i/height` otherwise, and each of the three
channels of row `i`'s line color is `int(top*(1-blend) + bottom*blend)` —
truncation toward zero, which here is the floor, not `round` — and lies in
`[0, 255]` for 8-bit input channels. -/
theorem C3_gradient_channels (height i t1 t2 t3 b1 b2 b3 : ℕ)
    (hi : i < height) (ht1 : t1 ≤ 255) (ht2 : t2 ≤ 255) (ht3 : t3 ≤ 255)
    (hb1 : b1 ≤ 255) (hb2 : b2 ≤ 255) (hb3 : b3 ≤ 255) :
    (blendFactor height i
        = if (i : ℚ) ≤ (height : ℚ) / 2 then 2 * (i : ℚ) / (height : ℚ)
          else 2 - 2 * (i : ℚ) / (height : ℚ)) ∧
    gradColor height i (t1, t2, t3) (b1, b2, b3)
      = (⌊(t1 : ℚ) * (1 - blendFactor height i) + (b1 : ℚ) * blendFactor height i⌋,
         ⌊(t2 : ℚ) * (1 - blendFactor height i) + (b2 : ℚ) * blendFactor height i⌋,
         ⌊(t3 : ℚ) * (1 - blendFactor height i) + (b3 : ℚ) * blendFactor height i⌋) ∧
    (0 ≤ (gradColor height i (t1, t2, t3) (b1, b2, b3)).1 ∧
      (gradColor height i (t1, t2, t3) (b1, b2, b3)).1 ≤ 255) ∧
    (0 ≤ (gradColor height i (t1, t2, t3) (b1, b2, b3)).2.1 ∧
      (gradColor height i (t1, t2, t3) (b1, b2, b3)).2.1 ≤ 255) ∧
    (0 ≤ (gradColor height i (t1, t2, t3) (b1, b2, b3)).2.2 ∧
      (gradColor height i (t1, t2, t3) (b1, b2, b3)).2.2 ≤ 255) := by
  have hcond : (i ≤ height / 2) ↔ ((i : ℚ) ≤ (height : ℚ) / 2) := by
    rw [Nat.le_div_iff_mul_le (by norm_num : 0 < 2),
      le_div_iff (by norm_num : (0 : ℚ) < 2)]
    exact_mod_cast Iff.rfl
  obtain ⟨e1, l1, u1⟩ := gradChannel_floor_bounds hi ht1 hb1
  obtain ⟨e2, l2, u2⟩ := gradChannel_floor_bounds hi ht2 hb2
  obtain ⟨e3, l3, u3⟩ := gradChannel_floor_bounds hi ht3 hb3
  refine ⟨?_, ?_, ⟨l1, u1⟩, ⟨l2, u2⟩, ⟨l3, u3⟩⟩
  · rw [blendFactor]
    by_cases h : i ≤ height / 2
    · rw [if_pos h, if_pos (hcond.1 h)]
      ring
    · rw [if_neg h, if_neg (fun hq => h (hcond.2 hq))]
      ring
  · simp only [gradColor]
    rw [e1, e2, e3]

/-- C3 (amended) witnessed at height 982, row 4, top `(172,203,242)`,
bottom `(253,153,101)`. -/
theorem C3_gradient_channels_witness :
    (blendFactor 982 4
        = if ((4 : ℕ) : ℚ) ≤ ((982 : ℕ) : ℚ) / 2 then 2 * ((4 : ℕ) : ℚ) / ((982 : ℕ) : ℚ)
          else 2 - 2 * ((4 : ℕ) : ℚ) / ((982 : ℕ) : ℚ)) ∧
    gradColor 982 4 (172, 203, 242) (253, 153, 101)
      = (⌊(172 : ℚ) * (1 - blendFactor 982 4) + (253 : ℚ) * blendFactor 982 4⌋,
         ⌊(203 : ℚ) * (1 - blendFactor 982 4) + (153 : ℚ) * blendFactor 982 4⌋,
         ⌊(242 : ℚ) * (1 - blendFactor 982 4) + (101 : ℚ) * blendFactor 982 4⌋) ∧
    (0 ≤ (gradColor 982 4 (172, 203, 242) (253, 153, 101)).1 ∧
      (gradColor 982 4 (172, 203, 242) (253, 153, 101)).1 ≤ 255) ∧
    (0 ≤ (gradColor 982 4 (172, 203, 242) (253, 153, 101)).2.1 ∧
      (gradColor 982 4 (172, 203, 242) (253, 153, 101)).2.1 ≤ 255) ∧
    (0 ≤ (gradColor 982 4 (172, 203, 242) (253, 153, 101)).2.2 ∧
      (gradColor 982 4 (172, 203, 242) (253, 153, 101)).2.2 ≤ 255) :=
  C3_gradient_channels 982 4 172 203 242 253 153 101 (by norm_num)
    (by norm_num) (by norm_num) (by norm_num) (by norm_num) (by norm_num)
    (by norm_num)

/-- A 90×180 logo is already within the 180 bound, so `thumbnail` leaves it
at 90×180. -/
theorem logo_scaled_size_90_180 : logo_scaled_size 90 180 = (90, 180) := by
  unfold logo_scaled_size thumbnail_size logo_size
  rw [if_pos]
  norm_num

/-- C2 counterexample: for a 90×180 logo the scaled width is 90, the claimed
centered x-position `(692 - 90) // 2` is 301, but the code pastes at
`692 // 2 - 180 // 2 = 256`, computed from the constant bound instead of the
scaled width. -/
theorem C2_counterexample :
    logo_scaled_size 90 180 = (90, 180) ∧
    (logo_paste_cmd 90 180).pos.1 = 256 ∧
    pyFloorDiv (692 - ((logo_scaled_size 90 180).1 : ℤ)) 2 = 301 ∧
    (logo_paste_cmd 90 180).pos.1
      ≠ pyFloorDiv (692 - ((logo_scaled_size 90 180).1 : ℤ)) 2 := by
  refine ⟨logo_scaled_size_90_180, by decide, ?_, ?_⟩
  · rw [logo_scaled_size_90_180]
    decide
  · rw [logo_scaled_size_90_180]
    decide

/-- C2 (amended): the logo paste uses the logo's own alpha channel as mask,
and its x-position is the constant `692 // 2 - 180 // 2 = 256`; this
coincides with horizontal centering `(692 - scaled width) // 2` exactly when
the scaled width is 180. -/
theorem C2_logo_paste (w h : ℕ) (hw : 0 < w) (hh : 0 < h) :
    (logo_paste_cmd w h).mask = PasteMask.selfAlpha ∧
    (logo_paste_cmd w h).pos.1 = 256 ∧
    ((logo_scaled_size w h).1 = 180 →
      (logo_paste_cmd w h).pos.1
        = pyFloorDiv (692 - ((logo_scaled_size w h).1 : ℤ)) 2) := by
  refine ⟨rfl, ?_, fun hsc => ?_⟩
  · show logo_position.1 = 256
    decide
  · rw [hsc]
    show logo_position.1 = pyFloorDiv (692 - ((180 : ℕ) : ℤ)) 2
    decide

/-- C2 (amended) witnessed on a 200×200 logo (scaled to 180×180, where the
paste position 256 is exactly centered). -/
theorem C2_logo_paste_witness :
    (logo_paste_cmd 200 200).mask = PasteMask.selfAlpha ∧
    (logo_paste_cmd 200 200).pos.1 = 256 ∧
    ((logo_scaled_size 200 200).1 = 180 →
      (logo_paste_cmd 200 200).pos.1
        = pyFloorDiv (692 - ((logo_scaled_size 200 200).1 : ℤ)) 2) :=
  C2_logo_paste 200 200 (by decide) (by decide)

/-- C1 (code bug): on file-not-found or JSON parse failure `load_json_file`
returns the bare `{}` — not the `{columns: [], data: []}` record set the spec
promises — and passing that `{}` on to `draw_table` raises
`KeyError('columns')` instead of drawing nothing; with the promised record
set `draw_table` would indeed draw nothing. -/
theorem C1_loader_bug :
    load_json_file (fun _ => none) "data/data.json" = JVal.obj [] ∧
    load_json_file (fun _ => some none) "data/data.json" = JVal.obj [] ∧
    JVal.obj [] ≠ mkTable [] [] ∧
    (∀ x y : ℤ, draw_table x y (JVal.obj []) col_widths row_height
        = Except.error (PyErr.keyError "columns")) ∧
    (∀ x y : ℤ, draw_table x y (mkTable [] []) col_widths row_height
        = Except.ok []) := by
  refine ⟨rfl, rfl, ?_, fun x y => rfl, fun x y => rfl⟩
  simp [mkTable]

/-- In-range Python list indexing succeeds. -/
theorem pyIndex_ok {α : Type} (xs : List α) (d : α) {i : ℕ} (h : i < xs.length) :
    pyIndex xs i = Except.ok (xs.getD i d) := by
  simp [pyIndex, List.get?_eq_getElem?, List.getElem?_eq_getElem h, List.getD_eq_getElem?_getD]

/-- Out-of-range Python list indexing raises `IndexError`. -/
theorem pyIndex_err {α : Type} (xs : List α) {i : ℕ} (h : xs.length ≤ i) :
    pyIndex xs i = Except.error PyErr.indexError := by
  simp [pyIndex, List.get?_eq_getElem?, List.getElem?_eq_none h]

/-- When every index it will touch is in range, the header loop matches the
spec-side closed form. -/
theorem headerCmds_eq_spec (x y : ℤ) (ws : List ℤ) (rh : ℤ) (cs : List String) :
    ∀ c : ℕ, c + cs.length ≤ ws.length →
      headerCmds x y ws rh c cs = Except.ok (headerSpec x y ws rh c cs) := by
  induction cs with
  | nil => intro c _; rfl
  | cons t ts ih =>
      intro c h
      have hc : c < ws.length := by simp at h; omega
      simp only [headerCmds, headerSpec]
      rw [pyIndex_ok ws 0 hc, ih (c + 1) (by simp at h ⊢; omega)]
      rfl

/-- When every index it will touch is in range, a data row's cell loop
matches the spec-side closed form. -/
theorem rowCmds_eq_spec (x yo : ℤ) (ws : List ℤ) (rh : ℤ) (cs : List String) :
    ∀ c : ℕ, c + cs.length ≤ ws.length →
      rowCmds x yo ws rh c cs = Except.ok (rowSpec x ws rh yo c cs) := by
  induction cs with
  | nil => intro c _; rfl
  | cons t ts ih =>
      intro c h
      have hc : c < ws.length := by simp at h; omega
      simp only [rowCmds, rowSpec]
      rw [pyIndex_ok ws 0 hc, ih (c + 1) (by simp at h ⊢; omega)]
      rfl

/-- When every row fits the supplied column widths, the data-row loop
succeeds and matches the spec-side closed form. -/
theorem rowsCmds_eq_at (x : ℤ) (ws : List ℤ) (rh : ℤ) (rows : List (List String)) :
    ∀ yo : ℤ, (∀ row ∈ rows, row.length ≤ ws.length) →
      rowsCmds x ws rh yo rows = Except.ok (tableSpecAt x ws rh yo rows) := by
  induction rows with
  | nil => intro yo _; rfl
  | cons r rs ih =>
      intro yo h
      simp only [rowsCmds, tableSpecAt]
      rw [rowCmds_eq_spec x yo ws rh r 0 (by simpa using h r (by simp)),
        ih (yo + rh) (fun row hm => h row (by simp [hm]))]
      rfl

/-- Shifting `tableSpecAt`'s running offset into the spec's `(r+1)*rh` form. -/
theorem tableSpecAt_eq_tableSpec (x y : ℤ) (ws : List ℤ) (rh : ℤ)
    (rows : List (List String)) :
    ∀ r : ℕ, tableSpecAt x ws rh (y + ((r : ℤ) + 1) * rh) rows
      = tableSpec x y ws rh r rows := by
  induction rows with
  | nil => intro r; rfl
  | cons row rs ih =>
      intro r
      simp only [tableSpecAt, tableSpec]
      rw [show y + ((r : ℤ) + 1) * rh + rh = y + (((r + 1 : ℕ) : ℤ) + 1) * rh by
        push_cast; ring]
      rw [ih (r + 1)]

/-- A `columns` array built from strings parses back to those strings. -/
theorem asStrList_map_str (cols : List String) :
    asStrList (JVal.arr (cols.map JVal.str)) = Except.ok cols := by
  induction cols with
  | nil => rfl
  | cons c cs ih =>
      simp only [asStrList] at ih
      simp only [asStrList, List.map_cons, List.foldr_cons]
      rw [ih]
      rfl

/-- A `data` array built from rows of strings parses back to those rows. -/
theorem asRows_map (rows : List (List String)) :
    asRows (JVal.arr (rows.map fun r => JVal.arr (r.map JVal.str))) = Except.ok rows := by
  induction rows with
  | nil => rfl
  | cons r rs ih =>
      simp only [asRows] at ih
      simp only [asRows, List.map_cons, List.foldr_cons]
      rw [ih, asStrList_map_str r]
      rfl

/-- Function `draw_table` on a well-formed record set whose columns fit the widths:
the dict lookups, the parses and the header loop all succeed, leaving only
the data-row loop. -/
theorem draw_table_reduces (x y rh : ℤ) (ws : List ℤ) (cols : List String)
    (rows : List (List String)) (hc : cols.length ≤ ws.length) :
    draw_table x y (mkTable cols rows) ws rh
      = (do
          let rcmds ← rowsCmds x ws rh (y + rh) rows
          Except.ok (headerSpec x y ws rh 0 cols ++ rcmds)) := by
  calc draw_table x y (mkTable cols rows) ws rh
      = (do
          let cols' ← asStrList (JVal.arr (cols.map JVal.str))
          let hcmds ← headerCmds x y ws rh 0 cols'
          let rows' ← asRows (JVal.arr (rows.map fun r => JVal.arr (r.map JVal.str)))
          let rcmds ← rowsCmds x ws rh (y + rh) rows'
          Except.ok (hcmds ++ rcmds)) := rfl
    _ = (do
          let hcmds ← headerCmds x y ws rh 0 cols
          let rows' ← asRows (JVal.arr (rows.map fun r => JVal.arr (r.map JVal.str)))
          let rcmds ← rowsCmds x ws rh (y + rh) rows'
          Except.ok (hcmds ++ rcmds)) := by rw [asStrList_map_str]; rfl
    _ = (do
          let rows' ← asRows (JVal.arr (rows.map fun r => JVal.arr (r.map JVal.str)))
          let rcmds ← rowsCmds x ws rh (y + rh) rows'
          Except.ok (headerSpec x y ws rh 0 cols ++ rcmds)) := by
            rw [headerCmds_eq_spec x y ws rh cols 0 (by simpa using hc)]; rfl
    _ = (do
          let rcmds ← rowsCmds x ws rh (y + rh) rows
          Except.ok (headerSpec x y ws rh 0 cols ++ rcmds)) := by rw [asRows_map]; rfl

/-- Function `draw_table` on a well-formed record set whose columns and rows all fit
the supplied widths equals the spec-side layout. -/
theorem draw_table_eq_spec (x y rh : ℤ) (ws : List ℤ) (cols : List String)
    (rows : List (List String)) (hc : cols.length ≤ ws.length)
    (hr : ∀ row ∈ rows, row.length ≤ ws.length) :
    draw_table x y (mkTable cols rows) ws rh
      = Except.ok (headerSpec x y ws rh 0 cols ++ tableSpec x y ws rh 0 rows) := by
  rw [draw_table_reduces x y rh ws cols rows hc,
    rowsCmds_eq_at x ws rh rows (y + rh) hr,
    show y + rh = y + (((0 : ℕ) : ℤ) + 1) * rh by push_cast; ring,
    tableSpecAt_eq_tableSpec x y ws rh rows 0]
  rfl

/-- C6: for a record set whose columns and rows all fit the supplied widths,
`draw_table` produces exactly the spec-side layout — column `c`'s cell
rectangle starts at `anchor_x` plus the sum of the widths of columns
`0..c-1`, the header occupies row 0 at `anchor_y`, data row `r` is drawn at
`anchor_y + (r+1)*row_height`, and the y-offset advances by exactly
`row_height` per row — and for widths `[200, 350]` the second column starts
at `anchor_x + 200`. -/
theorem C6_table_layout (x y rh : ℤ) (ws : List ℤ) (cols : List String)
    (rows : List (List String)) (hc : cols.length ≤ ws.length)
    (hr : ∀ row ∈ rows, row.length ≤ ws.length) :
    draw_table x y (mkTable cols rows) ws rh
      = Except.ok (headerSpec x y ws rh 0 cols ++ tableSpec x y ws rh 0 rows) ∧
    sumWidths col_widths 1 = 200 :=
  ⟨draw_table_eq_spec x y rh ws cols rows hc hr, by decide⟩

/-- C6 witnessed on the two-column table `{columns: ["A","B"],
data: [["1","2"]]}` with widths `[200, 350]`. -/
theorem C6_table_layout_witness :
    draw_table 71 543 (mkTable ["A", "B"] [["1", "2"]]) [200, 350] 40
      = Except.ok (headerSpec 71 543 [200, 350] 40 0 ["A", "B"]
          ++ tableSpec 71 543 [200, 350] 40 0 [["1", "2"]]) ∧
    sumWidths col_widths 1 = 200 :=
  C6_table_layout 71 543 40 [200, 350] ["A", "B"] [["1", "2"]]
    (by decide) (by decide)

/-- A cell loop that starts in range but runs past the widths raises
`IndexError`. -/
theorem rowCmds_overflow (x yo : ℤ) (ws : List ℤ) (rh : ℤ) (cs : List String) :
    ∀ c : ℕ, ws.length < c + cs.length → cs ≠ [] →
      rowCmds x yo ws rh c cs = Except.error PyErr.indexError := by
  induction cs with
  | nil => intro c _ hne; exact absurd rfl hne
  | cons t ts ih =>
      intro c h _
      by_cases hcw : c < ws.length
      · cases ts with
        | nil => simp at h; omega
        | cons t' ts' =>
            have hrec := ih (c + 1) (by simp at h ⊢; omega) (by simp)
            calc rowCmds x yo ws rh c (t :: t' :: ts')
                = (do
                    let w ← pyIndex ws c
                    let rest ← rowCmds x yo ws rh (c + 1) (t' :: ts')
                    Except.ok
                      (TCmd.rect (x + sumWidths ws c) yo (x + sumWidths ws c + w)
                          (yo + rh)
                          (if c % 2 = 0 then "#E6E6FA" else "#98FB98") "black" ::
                        TCmd.text (x + sumWidths ws c + 10) (yo + 10) t "black" ::
                        rest)) := rfl
              _ = Except.error PyErr.indexError := by
                    rw [pyIndex_ok ws 0 hcw, hrec]
                    rfl
      · simp only [rowCmds]
        rw [pyIndex_err ws (by omega)]
        rfl

/-- If some row overflows the widths, the data-row loop raises `IndexError`
(at the first such row). -/
theorem rowsCmds_overflow (x : ℤ) (ws : List ℤ) (rh : ℤ)
    (rows : List (List String)) :
    ∀ yo : ℤ, (∃ row ∈ rows, ws.length < row.length) →
      rowsCmds x ws rh yo rows = Except.error PyErr.indexError := by
  induction rows with
  | nil => intro yo h; simp at h
  | cons r rs ih =>
      intro yo h
      by_cases hr : ws.length < r.length
      · simp only [rowsCmds]
        rw [rowCmds_overflow x yo ws rh r 0 (by omega)
          (by intro he; rw [he] at hr; simp at hr)]
        rfl
      · obtain ⟨row, hmem, hlen⟩ := h
        rcases List.mem_cons.1 hmem with heq | hmem'
        · exact absurd (heq ▸ hlen) hr
        · simp only [rowsCmds]
          rw [rowCmds_eq_spec x yo ws rh r 0 (by simp; omega),
            ih (yo + rh) ⟨row, hmem', hlen⟩]
          rfl

/-- Function `draw_table` on a record set whose columns fit but some data row
overflows the widths raises `IndexError`. -/
theorem draw_table_overflow (x y rh : ℤ) (ws : List ℤ) (cols : List String)
    (rows : List (List String)) (hc : cols.length ≤ ws.length)
    (hbad : ∃ row ∈ rows, ws.length < row.length) :
    draw_table x y (mkTable cols rows) ws rh = Except.error PyErr.indexError := by
  rw [draw_table_reduces x y rh ws cols rows hc,
    rowsCmds_overflow x ws rh rows (y + rh) hbad]
  rfl

/-- C9: with a record set whose columns fit the widths, `draw_table` raises
`IndexError` whenever some data row has more cells than there are column
widths (the cell loop indexes `col_widths` out of range), and under the
precondition that every row fits, the data-row loop cannot reach that error
branch: it always succeeds. -/
theorem C9_row_bounds (x y rh : ℤ) (ws : List ℤ) (cols : List String)
    (rows : List (List String)) (hc : cols.length ≤ ws.length) :
    ((∃ row ∈ rows, ws.length < row.length) →
      draw_table x y (mkTable cols rows) ws rh = Except.error PyErr.indexError) ∧
    ((∀ row ∈ rows, row.length ≤ ws.length) →
      ∀ yo : ℤ, rowsCmds x ws rh yo rows = Except.ok (tableSpecAt x ws rh yo rows)) :=
  ⟨fun hbad => draw_table_overflow x y rh ws cols rows hc hbad,
   fun hr yo => rowsCmds_eq_at x ws rh rows yo hr⟩

/-- C9 witnessed: with widths `[200, 350]` and the single three-cell row
`["1","2","3"]`, `draw_table` raises `IndexError`. -/
theorem C9_row_bounds_witness :
    ((∃ row ∈ [["1", "2", "3"]], ([(200 : ℤ), 350]).length < row.length) →
      draw_table 71 543 (mkTable ["A", "B"] [["1", "2", "3"]]) [200, 350] 40
        = Except.error PyErr.indexError) ∧
    ((∀ row ∈ [["1", "2", "3"]], row.length ≤ ([(200 : ℤ), 350]).length) →
      ∀ yo : ℤ, rowsCmds 71 [200, 350] 40 yo [["1", "2", "3"]]
        = Except.ok (tableSpecAt 71 [200, 350] 40 yo [["1", "2", "3"]])) :=
  C9_row_bounds 71 543 40 [200, 350] ["A", "B"] [["1", "2", "3"]] (by decide)

/-- C5: for every center and scale, `draw_flower` issues exactly six commands:
five petal circles (filled "pink", radius `30*scale`, centered at the flower
center plus the offset of magnitude `10*scale` at angle `2πk/5` for petal
`k = 0..4` — for scale 1 the offsets have magnitude 10 and consecutive petals
are separated by exactly 72° — followed last by the central circle (filled
"yellow", radius `10*scale`) at the center itself. -/
theorem C5_flower_petals (x y s : ℝ) :
    (draw_flower x y s).length = 6 ∧
    (∀ k : Fin 5, (draw_flower x y s)[(k : ℕ)]?
        = some (FCmd.ellipse
            (x - 30 * s + 10 * s * Real.cos (petalAngle k))
            (y - 30 * s + 10 * s * Real.sin (petalAngle k))
            (x + 30 * s + 10 * s * Real.cos (petalAngle k))
            (y + 30 * s + 10 * s * Real.sin (petalAngle k)) "pink")) ∧
    (∀ k : Fin 5, petalAngle k = 2 * Real.pi * k / 5) ∧
    (∀ k : Fin 4, petalAngle ((k : ℕ) + 1) - petalAngle k = 72 * (Real.pi / 180)) ∧
    (∀ k : Fin 5,
      Real.sqrt ((10 * Real.cos (petalAngle k)) ^ 2
        + (10 * Real.sin (petalAngle k)) ^ 2) = 10) ∧
    (draw_flower x y s)[(5 : ℕ)]?
      = some (FCmd.ellipse (x - 10 * s) (y - 10 * s) (x + 10 * s) (y + 10 * s)
          "yellow") := by
  refine ⟨by simp [draw_flower], fun k => ?_, fun k => ?_, fun k => ?_,
    fun k => ?_, ?_⟩
  · have hk : (k : ℕ) < 5 := k.isLt
    simp only [draw_flower]
    rw [List.getElem?_append_left (by simp [hk])]
    simp [List.getElem?_map, List.getElem?_range, hk]
  · unfold petalAngle
    ring
  · unfold petalAngle
    push_cast
    ring
  · have hs := Real.sin_sq_add_cos_sq (petalAngle k)
    have h1 : (10 * Real.cos (petalAngle k)) ^ 2
        + (10 * Real.sin (petalAngle k)) ^ 2 = 100 := by nlinarith [hs]
    rw [h1, show (100 : ℝ) = 10 ^ 2 by norm_num,
      Real.sqrt_sq (by norm_num : (0 : ℝ) ≤ 10)]
  · simp only [draw_flower]
    rw [List.getElem?_append_right (by simp)]
    simp
